import Mathlib

/-!
Verification of the `wckfa-booker` pipeline (`src/main.rs`).

The program converts a directory of photographs into one paginated PDF:
it extracts EXIF capture timestamps (`retrieve_image_and_metadata`),
walks the input directory (`process_input_files`), sorts records by
timestamp (`main`, line 95), normalizes each image (rotate / grayscale /
resize, `main` lines 102-129) and composes one page per image
(`write_images_to_pdf_file`).

This file gives a shallow embedding of that pipeline.  Rust machine
integers become `Int`/`Nat` with explicit range checks where the source
checks ranges (integer parsing), fallible calls become an explicit result
type that distinguishes a returned `Err` from a process abort via
`unwrap()`, and the floating-point pixel kernels of the `image` crate
(the luminance weights and the Catmull-Rom resampling kernel) are
abstracted as parameters, since no property below depends on the pixel
values they produce, only on dimensions and on the order of operations.
-/

namespace Booker

/-! ## Timestamps (`chrono::NaiveDateTime`)

`chrono`'s `NaiveDateTime` is a calendar date plus a time of day; its
derived `Ord` is chronological, which on values built by
`NaiveDate::from_ymd(..).and_hms(..)` (the only way this program builds
them) coincides with lexicographic comparison of the six components. -/

structure NaiveDateTime where
  year : Int
  month : Nat
  day : Nat
  hour : Nat
  minute : Nat
  second : Nat
deriving DecidableEq, Repr

/-- Rust's `Ord::cmp` on `i32`: less, equal, or greater. -/
def cmpI (a b : Int) : Ordering :=
  if a < b then .lt else if a = b then .eq else .gt

/-- Rust's `Ord::cmp` on unsigned integers. -/
def cmpN (a b : Nat) : Ordering :=
  if a < b then .lt else if a = b then .eq else .gt

/-- Chronological comparison of two `NaiveDateTime`s: lexicographic on
(year, month, day, hour, minute, second), as in `chrono`'s derived `Ord`. -/
def NaiveDateTime.cmp (a b : NaiveDateTime) : Ordering :=
  (cmpI a.year b.year).then ((cmpN a.month b.month).then
    ((cmpN a.day b.day).then ((cmpN a.hour b.hour).then
      ((cmpN a.minute b.minute).then (cmpN a.second b.second)))))

/-- Model of chrono's `PartialOrd::partial_cmp` for `NaiveDateTime`: the derived
implementation of a totally ordered type, i.e. always `Some(cmp)`. -/
def NaiveDateTime.partCmp (a b : NaiveDateTime) : Option Ordering :=
  some (NaiveDateTime.cmp a b)

/-- Strict chronological order, spelled out component-wise. -/
def NaiveDateTime.lexLt (a b : NaiveDateTime) : Prop :=
  a.year < b.year ∨ (a.year = b.year ∧
    (a.month < b.month ∨ (a.month = b.month ∧
      (a.day < b.day ∨ (a.day = b.day ∧
        (a.hour < b.hour ∨ (a.hour = b.hour ∧
          (a.minute < b.minute ∨ (a.minute = b.minute ∧
            a.second < b.second)))))))))

/-! ## Image records -/

/-- The record type `ImageAndMetadata`: source path plus capture time. -/
structure ImageAndMetadata where
  path : String
  date_created : NaiveDateTime
deriving DecidableEq, Repr

/-- The comparator closure of `main` line 95:
`a.date_created.partial_cmp(&b.date_created)` (before the `.unwrap()`). -/
def sort_comparator (a b : ImageAndMetadata) : Option Ordering :=
  NaiveDateTime.partCmp a.date_created b.date_created

/-- True unless the `Ordering` is `Greater`. -/
def ordNotGt : Ordering → Bool
  | .gt => false
  | _ => true

/-- The effective "less or equal" the sort at `main` line 95 uses: the
unwrapped comparison is not `Greater`. -/
def record_le (a b : ImageAndMetadata) : Bool :=
  ordNotGt (NaiveDateTime.cmp a.date_created b.date_created)

/-- Relation form of `record_le`, for `List.insertionSort`. -/
def recordLe (a b : ImageAndMetadata) : Prop :=
  record_le a b = true

instance : DecidableRel recordLe := fun a b =>
  if h : record_le a b = true then .isTrue h else .isFalse h

/-- Model of `vals.sort_by(|a, b| a.date_created.partial_cmp(&b.date_created).unwrap())`
(`main` line 95).  Rust's `sort_by` is a stable sort; a stable sort by a
total preorder is a unique function of the input list, so we model it by
the stable `List.insertionSort`. -/
def sort_records (vals : List ImageAndMetadata) : List ImageAndMetadata :=
  List.insertionSort recordLe vals

/-! ## Result type

Distinguishes the three terminations of a fallible Rust function as this
program uses them: a returned `Ok`, a returned `Err` (propagated with
`?`), and a process abort via `unwrap()` on `None`/`Err` or via a
panicking constructor. -/

inductive RResult (ε α : Type) where
  | ok (a : α)
  | err (e : ε)
  | aborted
deriving DecidableEq, Repr

/-- Whether an `RResult` is a returned `Ok`. -/
def RResult.isOk : RResult ε α → Bool
  | .ok _ => true
  | _ => false

/-! ## EXIF model

`retrieve_image_and_metadata` touches a file only through: `File::open`
(can fail), `exif::Reader::read_from_container` (can fail), and
`exif.get_field(Tag::DateTimeOriginal, In::PRIMARY)` followed by
`display_value().to_string()` (an optional string).  A file is therefore
abstracted to those three observations. -/

/-- The two `exif::Error` classes the source can return: the `?` on
`File::open` (an I/O error) and the `?` on `read_from_container`. -/
inductive ExifError where
  | ioError
  | containerError
deriving DecidableEq, Repr

/-- Abstraction of one on-disk file as seen by the extractor. -/
structure ExifFile where
  /-- Whether `File::open` succeeds. -/
  openable : Bool
  /-- Whether `read_from_container` succeeds. -/
  container_ok : Bool
  /-- The `DateTimeOriginal` field of the primary IFD, rendered by
  `display_value().with_unit(&exif).to_string()`; `none` when absent. -/
  date_time_original : Option String

/-! ## String parsing (`main.rs` lines 204-215)

Rust's `str::split` on a char, `str::parse::<i32>` and
`str::parse::<u32>`, reimplemented on `List Char`. -/

/-- Rust's `str::split` on a char: splits at every occurrence; adjacent
separators and leading/trailing separators yield empty pieces; the empty
string yields one empty piece. -/
def split_on_char (c : Char) : List Char → List (List Char)
  | [] => [[]]
  | x :: xs =>
    if x = c then [] :: split_on_char c xs
    else
      match split_on_char c xs with
      | [] => [[x]]
      | g :: gs => (x :: g) :: gs

/-- ASCII decimal digit test. -/
def isDig (c : Char) : Bool :=
  '0' ≤ c && c ≤ '9'

/-- Value of a most-significant-first digit string. -/
def digitsVal (ds : List Char) : Nat :=
  ds.foldl (fun acc c => acc * 10 + (c.toNat - 48)) 0

/-- Rust's `str::parse::<u32>`: an optional `+` sign followed by one or more
ASCII digits, value within `u32` range; anything else is a parse error. -/
def parse_u32 (cs : List Char) : Option Nat :=
  let ds := match cs with
    | '+' :: rest => rest
    | _ => cs
  if ds ≠ [] && ds.all isDig then
    let n := digitsVal ds
    if n < 4294967296 then some n else none
  else none

/-- Rust's `str::parse::<i32>`: an optional `+`/`-` sign followed by one or more
ASCII digits, value within `i32` range. -/
def parse_i32 (cs : List Char) : Option Int :=
  match cs with
  | '-' :: ds =>
    if ds ≠ [] && ds.all isDig then
      let n := digitsVal ds
      if n ≤ 2147483648 then some (-(n : Int)) else none
    else none
  | _ =>
    let ds := match cs with
      | '+' :: rest => rest
      | _ => cs
    if ds ≠ [] && ds.all isDig then
      let n := digitsVal ds
      if n ≤ 2147483647 then some (n : Int) else none
    else none

/-! ## Date construction (`chrono`)

`NaiveDate::from_ymd` panics unless the year is within chrono's
representable range (`i32::MIN >> 13 .. i32::MAX >> 13`), the month is
1..=12 and the day is valid for that month; `and_hms` panics unless
hour < 24, minute < 60, second < 60. -/

/-- Proleptic-Gregorian leap year. -/
def is_leap_year (y : Int) : Bool :=
  y % 4 = 0 && (y % 100 ≠ 0 || y % 400 = 0)

/-- Days in a month (0 for an invalid month number). -/
def days_in_month (y : Int) (m : Nat) : Nat :=
  if m = 1 ∨ m = 3 ∨ m = 5 ∨ m = 7 ∨ m = 8 ∨ m = 10 ∨ m = 12 then 31
  else if m = 4 ∨ m = 6 ∨ m = 9 ∨ m = 11 then 30
  else if m = 2 then (if is_leap_year y then 29 else 28)
  else 0

/-- The argument combination on which `NaiveDate::from_ymd` succeeds. -/
def from_ymd_valid (y : Int) (m d : Nat) : Bool :=
  decide (-262144 ≤ y) && decide (y ≤ 262143) &&
    decide (1 ≤ m) && decide (m ≤ 12) &&
    decide (1 ≤ d) && decide (d ≤ days_in_month y m)

/-- The argument combination on which `NaiveDate::and_hms` succeeds. -/
def and_hms_valid (h mi s : Nat) : Bool :=
  decide (h < 24) && decide (mi < 60) && decide (s < 60)

/-- Lines 204-215 of `main.rs`: split the field's display string on a
space, the first piece on `-`, the second on `:`, parse the six numeric
components, and build the `NaiveDateTime`.  Every failure in this block
is an `unwrap()`/constructor panic in the source, so the whole block is
one `Option`: `none` means the process aborts. -/
def parse_date_time (s : String) : Option NaiveDateTime := do
  let split_date_time := split_on_char ' ' s.data
  let date_part ← split_date_time.get? 0
  let time_part ← split_date_time.get? 1
  let split_date := split_on_char '-' date_part
  let split_time := split_on_char ':' time_part
  let year ← parse_i32 (← split_date.get? 0)
  let month ← parse_u32 (← split_date.get? 1)
  let day ← parse_u32 (← split_date.get? 2)
  let hours ← parse_u32 (← split_time.get? 0)
  let minutes ← parse_u32 (← split_time.get? 1)
  let seconds ← parse_u32 (← split_time.get? 2)
  if from_ymd_valid year month day && and_hms_valid hours minutes seconds then
    some ⟨year, month, day, hours, minutes, seconds⟩
  else
    none

/-- Embedding of `retrieve_image_and_metadata` (`main.rs` lines 198-223) over an
abstract file system `fs`.  `File::open` and `read_from_container`
failures are propagated with `?` (a returned `Err`); the `unwrap()` on
`get_field` and every failure inside the parsing block abort the
process. -/
def retrieve_image_and_metadata (fs : String → ExifFile)
    (image_file_path : String) : RResult ExifError ImageAndMetadata :=
  let f := fs image_file_path
  if f.openable = false then .err .ioError
  else if f.container_ok = false then .err .containerError
  else
    match f.date_time_original with
    | none => .aborted
    | some s =>
      match parse_date_time s with
      | none => .aborted
      | some dt => .ok ⟨image_file_path, dt⟩

/-! ## Corpus scanner (`process_input_files`, lines 176-196) -/

/-- One entry produced by `WalkDir::new(input).into_iter()`:
whether the walk could read it (`e.ok()`), whether it is a directory
(`e.file_type().is_dir()`), and its path. -/
structure DirEntry where
  readable : Bool
  is_dir : Bool
  path : String
deriving DecidableEq, Repr

/-- The `filter_map(e.ok()).filter(!is_dir)` chain of lines 178-185:
unreadable entries and directories are dropped, regular files remain. -/
def candidate_entries (entries : List DirEntry) : List DirEntry :=
  (entries.filter (fun e => e.readable)).filter (fun e => ! e.is_dir)

/-- The `for entry in partitioned_files { v.push(imamd?); }` loop of
lines 189-193: extract each candidate in order; the first returned `Err`
is propagated, an abort aborts. -/
def extract_all (fs : String → ExifFile) :
    List DirEntry → RResult ExifError (List ImageAndMetadata)
  | [] => .ok []
  | e :: rest =>
    match retrieve_image_and_metadata fs e.path with
    | .ok r =>
      match extract_all fs rest with
      | .ok v => .ok (r :: v)
      | .err x => .err x
      | .aborted => .aborted
    | .err x => .err x
    | .aborted => .aborted

/-- Embedding of `process_input_files` (lines 176-196): walk the directory, keep the
readable non-directory entries, extract all. -/
def process_input_files (fs : String → ExifFile) (entries : List DirEntry) :
    RResult ExifError (List ImageAndMetadata) :=
  extract_all fs (candidate_entries entries)

/-! ## Raster images (`image` crate)

An RGB raster is dimensions plus a pixel function (8-bit channel values
as `Nat`); a grayscale raster has a single channel per pixel.  The
floating-point kernels of the crate — the sRGB luminance weights used by
`imageops::grayscale` and the Catmull-Rom resampling used by
`imageops::resize` — are abstracted into a `PixelOps` parameter: every
theorem below holds for all kernels, because no claim depends on the
numeric pixel values, only on dimensions, pixel-coordinate remapping and
the order of operations. -/

structure Rgb where
  r : Nat
  g : Nat
  b : Nat

/-- An RGB raster (`ImageBuffer<Rgb<u8>, _>`). -/
structure RgbImage where
  width : Nat
  height : Nat
  pixel : Nat → Nat → Rgb

/-- A single-channel grayscale raster (`ImageBuffer<Luma<u8>, _>`). -/
structure GrayImage where
  width : Nat
  height : Nat
  pixel : Nat → Nat → Nat

/-- The `image` crate's `imageops::FilterType`. -/
inductive FilterType where
  | Nearest
  | Triangle
  | CatmullRom
  | Gaussian
  | Lanczos3
deriving DecidableEq, Repr

/-- Abstracted pixel kernels (see module comment above). -/
structure PixelOps where
  /-- Luminance of one RGB pixel (`imageops::grayscale`'s per-pixel map). -/
  luma : Rgb → Nat
  /-- Resampling: source raster, target width/height, filter, target
  coordinates ↦ sample value. -/
  sample : GrayImage → Nat → Nat → FilterType → Nat → Nat → Nat

/-- Model of `imageops::rotate270`: rotate 270 degrees clockwise (= 90 degrees
counter-clockwise).  The crate builds an output of dimensions
(height, width) and writes `out[y, width-1-x] = src[x, y]`, i.e.
`out[X, Y] = src[width-1-Y, X]`. -/
def rotate270 (img : RgbImage) : RgbImage :=
  { width := img.height
    height := img.width
    pixel := fun x y => img.pixel (img.width - 1 - y) x }

/-- Model of `imageops::grayscale`: same dimensions, one luminance channel. -/
def grayscale (ops : PixelOps) (img : RgbImage) : GrayImage :=
  { width := img.width
    height := img.height
    pixel := fun x y => ops.luma (img.pixel x y) }

/-- Model of `imageops::resize(src, nwidth, nheight, filter)`: an output raster of
exactly the requested dimensions, sampled from the source. -/
def imageops_resize (ops : PixelOps) (img : GrayImage) (nwidth nheight : Nat)
    (filter : FilterType) : GrayImage :=
  { width := nwidth
    height := nheight
    pixel := fun x y => ops.sample img nwidth nheight filter x y }

/-- The per-record normalization of `main` lines 110-124: rotate 270
degrees when width strictly exceeds height, then grayscale, then resize
to 1275x1650 with the Catmull-Rom filter. -/
def normalize_image (ops : PixelOps) (img : RgbImage) : GrayImage :=
  let working_image := if img.width > img.height then rotate270 img else img
  let grayscale_image := grayscale ops working_image
  imageops_resize ops grayscale_image 1275 1650 FilterType.CatmullRom

/-! ## Artifact naming: `format!` with `:03` zero padding (line 107) -/

/-- Zero-pad a string on the left to length 3 (Rust's `{:03}` on an
unsigned value). -/
def pad_zero3 (s : String) : String :=
  if s.length < 3 then String.mk (List.replicate (3 - s.length) '0') ++ s
  else s

/-- The intermediate artifact name of page `k`. -/
def page_name (k : Nat) : String :=
  "page-" ++ pad_zero3 (toString k) ++ ".jpg"

/-- The normalization loop of `main` lines 102-129 as a pure view of the
artifacts it persists: starting at page number `k`, decode each record's
source (`image::open`; `none` means the decode `unwrap()` aborts, so no
artifact list exists), normalize, and pair with its artifact name. -/
def normalize_artifacts (ops : PixelOps) (decode : String → Option RgbImage) :
    Nat → List ImageAndMetadata → Option (List (String × GrayImage))
  | _, [] => some []
  | k, v :: rest =>
    match decode v.path with
    | none => none
    | some img =>
      match normalize_artifacts ops decode (k + 1) rest with
      | none => none
      | some arts => some ((page_name k, normalize_image ops img) :: arts)

/-! ## Page composer (`write_images_to_pdf_file`, lines 141-174) -/

/-- The seven positional arguments of printpdf 0.3's
`Image::add_to_layer(layer, translate_x, translate_y, rotate, scale_x,
scale_y, dpi)` after the layer: translation in millimetres, rotation,
scale factors, dpi.  All values the program passes are integral. -/
structure ImagePlacement where
  translate_x : Option Nat
  translate_y : Option Nat
  rotate : Option Nat
  scale_x : Option Nat
  scale_y : Option Nat
  dpi : Option Nat
deriving DecidableEq, Repr

/-- The placement of line 161:
`image.add_to_layer(current_layer.clone(), None, None, None, Some(2.0), Some(2.0), None)`
— no translation, no rotation, scale 2.0 in both axes, no dpi. -/
def booker_placement : ImagePlacement :=
  { translate_x := none
    translate_y := none
    rotate := none
    scale_x := some 2
    scale_y := some 2
    dpi := none }

/-- One PDF page: physical size in millimetres and the images placed on
its layer, by artifact name. -/
structure PdfPage where
  width_mm : Nat
  height_mm : Nat
  images : List (String × ImagePlacement)
deriving DecidableEq, Repr

/-- The composed document. -/
structure PdfDocument where
  title : String
  pages : List PdfPage
deriving DecidableEq, Repr

/-- A fresh page as created by `PdfDocument::new(.., Mm(216.0), Mm(279.0), ..)`
and `doc.add_page(Mm(216.0), Mm(279.0), ..)`. -/
def blank_page : PdfPage :=
  { width_mm := 216, height_mm := 279, images := [] }

/-- The finished page holding artifact `k`: fixed 216x279 size, exactly
one image, placed with `booker_placement`. -/
def page_with (k : Nat) : PdfPage :=
  { width_mm := 216, height_mm := 279, images := [(page_name k, booker_placement)] }

/-- Filesystem effects of the composer. -/
inductive Effect where
  /-- Artifact write: `resized_image.save(tmp_dir/name)` in the normalization loop. -/
  | write_artifact (name : String)
  /-- Artifact open: `File::open(input_dir/name)` in the composer loop. -/
  | open_artifact (name : String)
  /-- Output creation: `File::create(output_file)` inside the final `doc.save(..)`. -/
  | create_output
deriving DecidableEq, Repr

/-- The `while current_image <= *num_images` loop of lines 152-171.
`remaining` counts the images still to place (`num_images - current_image
+ 1` on entry when `current_image <= num_images`, 0 when the guard fails
immediately); `k` is `current_image`; `current` is the current page.
Each iteration opens artifact `k`, adds it to the current page with the
fixed placement, and — exactly when `current_image + 1 <= num_images`
(i.e. `remaining >= 2`) — appends a fresh 216x279 page and moves to it.
Returns the finished page list and the file-open effects in order. -/
def compose_pages : Nat → Nat → PdfPage → List PdfPage × List Effect
  | 0, _, current => ([current], [])
  | 1, k, current =>
    ([{ current with images := current.images ++ [(page_name k, booker_placement)] }],
     [Effect.open_artifact (page_name k)])
  | r + 2, k, current =>
    let rest := compose_pages (r + 1) (k + 1) blank_page
    ({ current with images := current.images ++ [(page_name k, booker_placement)] } :: rest.1,
     Effect.open_artifact (page_name k) :: rest.2)

/-- Embedding of `write_images_to_pdf_file` (lines 141-174): a document at fixed page
size 216mm x 279mm whose first page exists from `PdfDocument::new`, filled
by the loop above, then serialized (`File::create` + `doc.save`) once at
line 173.  Returns the document together with its file effects. -/
def write_images_to_pdf_file (doc_title : String) (num_images : Nat) :
    PdfDocument × List Effect :=
  let body := compose_pages num_images 1 blank_page
  ({ title := doc_title, pages := body.1 }, body.2 ++ [Effect.create_output])

/-! ## The whole run (`main`, lines 91-138)

`main` scans, sorts, normalizes (writing one artifact per record into the
temporary directory) and composes.  The run model tracks the file effects
relevant to the claims: artifact writes, artifact opens, and the creation
of the output file.  Pixel content is handled by `normalize_image` /
`normalize_artifacts` above; the run model threads the same decode calls
so that a decode failure aborts at the same point. -/

/-- Everything a run observes about the outside world. -/
structure World where
  /-- The entries `WalkDir` yields for the input directory. -/
  entries : List DirEntry
  /-- The EXIF view of each path. -/
  exif : String → ExifFile
  /-- Result of `image::open` on each source path (`none` = decode failure). -/
  decode : String → Option RgbImage

/-- Outcome of a run: success with the composed document and the ordered
file effects, or a process abort (panic) with the effects performed up to
that point. -/
inductive RunResult where
  | success (doc : PdfDocument) (effects : List Effect)
  | aborted (effects : List Effect)
deriving DecidableEq, Repr

/-- The normalization loop of lines 102-129, keeping only its effects:
for each record in order decode the source (abort on failure, retaining
the artifacts already written) and write artifact `page-k`. -/
def normalize_effects (w : World) : Nat → List ImageAndMetadata → Bool × List Effect
  | _, [] => (true, [])
  | k, v :: rest =>
    match w.decode v.path with
    | none => (false, [])
    | some _ =>
      let after := normalize_effects w (k + 1) rest
      (after.1, Effect.write_artifact (page_name k) :: after.2)

/-- Embedding of `main` lines 91-138: scan (an `Err` from `process_input_files` hits
`vals_option.unwrap()` and aborts), sort by capture time, normalize each
record, then compose and serialize.  `total_images` is the record count. -/
def run (w : World) (doc_title : String) : RunResult :=
  match process_input_files w.exif w.entries with
  | .err _ => .aborted []
  | .aborted => .aborted []
  | .ok vals =>
    let sorted := sort_records vals
    match normalize_effects w 1 sorted with
    | (false, effs) => .aborted effs
    | (true, effs) =>
      let composed := write_images_to_pdf_file doc_title sorted.length
      .success composed.1 (effs ++ composed.2)

/-! ## Concrete inputs used by witnesses -/

/-- A concrete kernel: luminance = red channel, constant resampling. -/
def opsW : PixelOps :=
  { luma := fun p => p.r
    sample := fun _ _ _ _ _ _ => 0 }

/-- A concrete 2x1 (landscape) raster. -/
def imgW : RgbImage :=
  { width := 2, height := 1, pixel := fun _ _ => ⟨7, 7, 7⟩ }

/-- A decoder that decodes every path to `imgW`. -/
def decodeW : String → Option RgbImage := fun _ => some imgW

/-- A decoder that fails on path "a" only (which sorts second under `exifW`). -/
def decodeFailA : String → Option RgbImage :=
  fun p => if p = "a" then none else some imgW

/-- An EXIF view: "a" was captured later than "b", both valid. -/
def exifW : String → ExifFile :=
  fun p =>
    if p = "a" then ⟨true, true, some "2020-01-02 10:00:00"⟩
    else ⟨true, true, some "2020-01-01 09:00:00"⟩

/-- An EXIF view whose files lack the `DateTimeOriginal` field. -/
def exifAbsent : String → ExifFile := fun _ => ⟨true, true, none⟩

/-- An EXIF view whose files cannot be opened. -/
def exifUnopenable : String → ExifFile := fun _ => ⟨false, true, none⟩

/-- Two regular readable files "a" and "b". -/
def entriesW : List DirEntry :=
  [⟨true, false, "a"⟩, ⟨true, false, "b"⟩]

/-- Files "a", "b" plus a directory and an unreadable entry. -/
def entriesMixed : List DirEntry :=
  [⟨true, true, "d"⟩, ⟨true, false, "a"⟩, ⟨false, false, "x"⟩, ⟨true, false, "b"⟩]

/-- The records `exifW` yields for "a" and "b". -/
def dtA : NaiveDateTime := ⟨2020, 1, 2, 10, 0, 0⟩

/-- See `dtA`. -/
def dtB : NaiveDateTime := ⟨2020, 1, 1, 9, 0, 0⟩

/-- A world with two decodable images, walked "a" then "b", captured
"b" before "a". -/
def worldW : World := ⟨entriesW, exifW, decodeW⟩

/-- Variant of `worldW` whose walk also yields a directory and an unreadable
entry. -/
def worldMixed : World := ⟨entriesMixed, exifW, decodeW⟩

/-- A world whose chronologically second image fails to decode. -/
def worldDecodeFail : World := ⟨entriesW, exifW, decodeFailA⟩

/-- A world whose input directory yields no entries at all. -/
def worldEmpty : World := ⟨[], exifW, decodeW⟩

/-- One-record list used by normalization witnesses. -/
def valsW : List ImageAndMetadata := [⟨"a", dtA⟩]

/-- The records extracted from `worldW` (walk order "a" then "b"). -/
def valsAB : List ImageAndMetadata := [⟨"a", dtA⟩, ⟨"b", dtB⟩]

/-- The document `worldW` produces. -/
def docW : PdfDocument := ⟨"t", [page_with 1, page_with 2]⟩

/-- The effect trace `worldW` produces. -/
def effsW : List Effect :=
  [Effect.write_artifact (page_name 1), Effect.write_artifact (page_name 2),
   Effect.open_artifact (page_name 1), Effect.open_artifact (page_name 2),
   Effect.create_output]

/-! ## Helper lemmas: the comparison order -/

theorem then_eq_gt (a b : Ordering) :
    a.then b = .gt ↔ a = .gt ∨ (a = .eq ∧ b = .gt) := by
  cases a <;> simp [Ordering.then]

theorem cmpI_gt_iff (a b : Int) : cmpI a b = .gt ↔ b < a := by
  unfold cmpI
  split_ifs with h1 h2 <;> simp_all <;> omega

theorem cmpI_eq_iff (a b : Int) : cmpI a b = .eq ↔ a = b := by
  unfold cmpI
  split_ifs with h1 h2 <;> simp_all
  omega

theorem cmpN_gt_iff (a b : Nat) : cmpN a b = .gt ↔ b < a := by
  unfold cmpN
  split_ifs with h1 h2 <;> simp_all <;> omega

theorem cmpN_eq_iff (a b : Nat) : cmpN a b = .eq ↔ a = b := by
  unfold cmpN
  split_ifs with h1 h2 <;> simp_all
  omega

theorem cmp_gt_iff (a b : NaiveDateTime) :
    NaiveDateTime.cmp a b = .gt ↔ NaiveDateTime.lexLt b a := by
  unfold NaiveDateTime.cmp NaiveDateTime.lexLt
  simp only [then_eq_gt, cmpI_gt_iff, cmpI_eq_iff, cmpN_gt_iff, cmpN_eq_iff]
  omega

theorem ordNotGt_iff (o : Ordering) : ordNotGt o = true ↔ o ≠ .gt := by
  cases o <;> simp [ordNotGt]

theorem record_le_iff (a b : ImageAndMetadata) :
    record_le a b = true ↔ ¬ NaiveDateTime.lexLt b.date_created a.date_created := by
  rw [record_le, ordNotGt_iff, Ne, cmp_gt_iff]

instance : IsTotal ImageAndMetadata recordLe := by
  constructor
  intro a b
  unfold recordLe
  rw [record_le_iff, record_le_iff]
  unfold NaiveDateTime.lexLt
  omega

instance : IsTrans ImageAndMetadata recordLe := by
  constructor
  intro a b c hab hbc
  unfold recordLe at *
  rw [record_le_iff] at *
  unfold NaiveDateTime.lexLt at *
  omega

theorem sort_records_sorted (l : List ImageAndMetadata) :
    (sort_records l).Sorted recordLe :=
  List.sorted_insertionSort recordLe l

theorem sort_records_perm (l : List ImageAndMetadata) :
    (sort_records l).Perm l :=
  List.perm_insertionSort recordLe l

theorem sort_records_length (l : List ImageAndMetadata) :
    (sort_records l).length = l.length :=
  List.length_insertionSort recordLe l

/-! ## Helper lemmas: the composer loop -/

theorem compose_pages_eq : ∀ (r k : Nat),
    compose_pages (r + 1) k blank_page =
      ((List.range' k (r + 1)).map page_with,
       (List.range' k (r + 1)).map (fun j => Effect.open_artifact (page_name j)))
  | 0, k => by
    simp [compose_pages, List.range', page_with, blank_page]
  | r + 1, k => by
    rw [show r + 1 + 1 = r + 2 from rfl, compose_pages, compose_pages_eq r (k + 1)]
    simp [List.range', page_with, blank_page]

theorem write_images_pages (doc_title : String) (r : Nat) :
    (write_images_to_pdf_file doc_title (r + 1)).1.pages =
      (List.range' 1 (r + 1)).map page_with := by
  rw [write_images_to_pdf_file, compose_pages_eq]

theorem write_images_effects (doc_title : String) (num_images : Nat) :
    (write_images_to_pdf_file doc_title num_images).2 =
      ((List.range' 1 num_images).map
        (fun j => Effect.open_artifact (page_name j))) ++ [Effect.create_output] := by
  cases num_images with
  | zero => rfl
  | succ r => rw [write_images_to_pdf_file, compose_pages_eq]

/-! ## Helper lemmas: the normalization loop -/

theorem normalize_effects_ok (w : World) : ∀ (vals : List ImageAndMetadata)
    (k : Nat) (effs : List Effect), normalize_effects w k vals = (true, effs) →
    effs = (List.range' k vals.length).map (fun j => Effect.write_artifact (page_name j)) := by
  intro vals
  induction vals with
  | nil =>
    intro k effs h
    simp [normalize_effects] at h
    simp [h.symm]
  | cons v rest ih =>
    intro k effs h
    rw [normalize_effects] at h
    cases hd : w.decode v.path with
    | none => rw [hd] at h; exact absurd h (by simp)
    | some img =>
      rw [hd] at h
      cases hrest : normalize_effects w (k + 1) rest with
      | mk b tail =>
        rw [hrest] at h
        obtain ⟨hb, heffs⟩ := Prod.mk.injEq .. ▸ h
        subst hb
        rw [← heffs, ih (k + 1) tail hrest, List.length_cons]
        simp [List.range']

theorem normalize_effects_only_writes (w : World) : ∀ (vals : List ImageAndMetadata)
    (k : Nat), ∀ e ∈ (normalize_effects w k vals).2, ∃ n, e = Effect.write_artifact n := by
  intro vals
  induction vals with
  | nil => intro k e he; simp [normalize_effects] at he
  | cons v rest ih =>
    intro k e he
    rw [normalize_effects] at he
    cases hd : w.decode v.path with
    | none => rw [hd] at he; simp at he
    | some img =>
      rw [hd] at he
      simp only [List.mem_cons] at he
      rcases he with h | h
      · exact ⟨page_name k, h⟩
      · exact ih (k + 1) e h

theorem normalize_artifacts_spec (ops : PixelOps) (decode : String → Option RgbImage) :
    ∀ (vals : List ImageAndMetadata) (k : Nat) (arts : List (String × GrayImage)),
    normalize_artifacts ops decode k vals = some arts →
    arts.length = vals.length ∧
      ∀ (i : Nat) (a : String × GrayImage), arts[i]? = some a →
        a.1 = page_name (k + i) ∧ a.2.width = 1275 ∧ a.2.height = 1650 ∧
        ∃ g, a.2 = imageops_resize ops g 1275 1650 FilterType.CatmullRom := by
  intro vals
  induction vals with
  | nil =>
    intro k arts h
    simp only [normalize_artifacts, Option.some.injEq] at h
    subst h
    exact ⟨rfl, by simp⟩
  | cons v rest ih =>
    intro k arts h
    rw [normalize_artifacts] at h
    cases hd : decode v.path with
    | none => rw [hd] at h; exact absurd h (by simp)
    | some img =>
      rw [hd] at h
      cases hrest : normalize_artifacts ops decode (k + 1) rest with
      | none => rw [hrest] at h; exact absurd h (by simp)
      | some arts' =>
        rw [hrest] at h
        simp only [Option.some.injEq] at h
        subst h
        obtain ⟨hlen, hidx⟩ := ih (k + 1) arts' hrest
        refine ⟨by simp [hlen], ?_⟩
        intro i a ha
        cases i with
        | zero =>
          simp only [List.getElem?_cons_zero, Option.some.injEq] at ha
          subst ha
          exact ⟨by rw [Nat.add_zero], rfl, rfl,
            ⟨grayscale ops (if img.width > img.height then rotate270 img else img), rfl⟩⟩
        | succ j =>
          simp only [List.getElem?_cons_succ] at ha
          have hja := hidx j a ha
          rwa [Nat.add_assoc k 1 j, Nat.add_comm 1 j] at hja

/-! ## Helper lemmas: the scanner -/

theorem isOk_iff (x : RResult ε α) : x.isOk = true ↔ ∃ a, x = .ok a := by
  cases x <;> simp [RResult.isOk]

theorem extract_all_ok_of_all (fs : String → ExifFile) :
    ∀ l : List DirEntry, (∀ e ∈ l, (retrieve_image_and_metadata fs e.path).isOk = true) →
    ∃ vals, extract_all fs l = .ok vals ∧ vals.length = l.length := by
  intro l
  induction l with
  | nil => intro _; exact ⟨[], rfl, rfl⟩
  | cons e rest ih =>
    intro h
    obtain ⟨r, hr⟩ := (isOk_iff _).mp (h e (List.mem_cons_self e rest))
    obtain ⟨vals, hv, hlen⟩ := ih (fun x hx => h x (List.mem_cons_of_mem e hx))
    exact ⟨r :: vals, by rw [extract_all, hr, hv], by simp [hlen]⟩

theorem extract_all_ok_elim (fs : String → ExifFile) :
    ∀ (l : List DirEntry) (vals : List ImageAndMetadata), extract_all fs l = .ok vals →
    vals.length = l.length ∧
      ∀ (i : Nat) (e : DirEntry) (v : ImageAndMetadata), l[i]? = some e → vals[i]? = some v →
        retrieve_image_and_metadata fs e.path = .ok v := by
  intro l
  induction l with
  | nil =>
    intro vals h
    simp only [extract_all, RResult.ok.injEq] at h
    subst h
    exact ⟨rfl, by simp⟩
  | cons e rest ih =>
    intro vals h
    rw [extract_all] at h
    cases hr : retrieve_image_and_metadata fs e.path with
    | ok r =>
      rw [hr] at h
      cases hrest : extract_all fs rest with
      | ok v' =>
        rw [hrest] at h
        obtain ⟨hlen, hidx⟩ := ih v' hrest
        simp only [RResult.ok.injEq] at h
        subst h
        refine ⟨by simp [hlen], ?_⟩
        intro i a v hi hv
        cases i with
        | zero =>
          simp only [List.getElem?_cons_zero, Option.some.injEq] at hi hv
          rw [← hi, ← hv]; exact hr
        | succ j =>
          simp only [List.getElem?_cons_succ] at hi hv
          exact hidx j a v hi hv
      | err x => rw [hrest] at h; exact absurd h (by simp)
      | aborted => rw [hrest] at h; exact absurd h (by simp)
    | err x => rw [hr] at h; exact absurd h (by simp)
    | aborted => rw [hr] at h; exact absurd h (by simp)

theorem extract_all_first_err (fs : String → ExifFile) :
    ∀ (l : List DirEntry) (i : Nat) (e : DirEntry) (x : ExifError), l[i]? = some e →
    (∀ j ej, j < i → l[j]? = some ej → (retrieve_image_and_metadata fs ej.path).isOk = true) →
    retrieve_image_and_metadata fs e.path = .err x →
    extract_all fs l = .err x := by
  intro l
  induction l with
  | nil => intro i e x hi; simp at hi
  | cons hd rest ih =>
    intro i e x hi hbefore herr
    cases i with
    | zero =>
      simp only [List.getElem?_cons_zero, Option.some.injEq] at hi
      subst hi
      rw [extract_all, herr]
    | succ j =>
      simp only [List.getElem?_cons_succ] at hi
      obtain ⟨r, hr⟩ := (isOk_iff _).mp
        (hbefore 0 hd (Nat.succ_pos j) List.getElem?_cons_zero)
      rw [extract_all, hr,
        ih j e x hi (fun m em hm hm' =>
          hbefore (m + 1) em (Nat.succ_lt_succ hm) (by simpa using hm')) herr]

theorem extract_all_first_abort (fs : String → ExifFile) :
    ∀ (l : List DirEntry) (i : Nat) (e : DirEntry), l[i]? = some e →
    (∀ j ej, j < i → l[j]? = some ej → (retrieve_image_and_metadata fs ej.path).isOk = true) →
    retrieve_image_and_metadata fs e.path = .aborted →
    extract_all fs l = .aborted := by
  intro l
  induction l with
  | nil => intro i e hi; simp at hi
  | cons hd rest ih =>
    intro i e hi hbefore habt
    cases i with
    | zero =>
      simp only [List.getElem?_cons_zero, Option.some.injEq] at hi
      subst hi
      rw [extract_all, habt]
    | succ j =>
      simp only [List.getElem?_cons_succ] at hi
      obtain ⟨r, hr⟩ := (isOk_iff _).mp
        (hbefore 0 hd (Nat.succ_pos j) List.getElem?_cons_zero)
      rw [extract_all, hr,
        ih j e hi (fun m em hm hm' =>
          hbefore (m + 1) em (Nat.succ_lt_succ hm) (by simpa using hm')) habt]

theorem candidate_entries_filter (entries : List DirEntry) :
    candidate_entries entries = entries.filter (fun e => e.readable && ! e.is_dir) := by
  rw [candidate_entries, List.filter_filter]
  exact List.filter_congr (fun e _ => Bool.and_comm (! e.is_dir) e.readable)

/-! ## Helper lemmas: decomposing a run -/

theorem run_success_elim (w : World) (doc_title : String) (doc : PdfDocument)
    (effs : List Effect) (h : run w doc_title = .success doc effs) :
    ∃ vals ne, process_input_files w.exif w.entries = .ok vals ∧
      normalize_effects w 1 (sort_records vals) = (true, ne) ∧
      doc = (write_images_to_pdf_file doc_title (sort_records vals).length).1 ∧
      effs = ne ++ (write_images_to_pdf_file doc_title (sort_records vals).length).2 := by
  unfold run at h
  cases hp : process_input_files w.exif w.entries with
  | err x => rw [hp] at h; exact absurd h (by simp)
  | aborted => rw [hp] at h; exact absurd h (by simp)
  | ok vals =>
    rw [hp] at h
    simp only at h
    cases hn : normalize_effects w 1 (sort_records vals) with
    | mk b ne =>
      cases b with
      | false => rw [hn] at h; exact absurd h (by simp)
      | true =>
        rw [hn] at h
        simp only [RunResult.success.injEq] at h
        exact ⟨vals, ne, rfl, hn, h.1.symm, h.2.symm⟩

theorem run_aborted_elim (w : World) (doc_title : String)
    (effs : List Effect) (h : run w doc_title = .aborted effs) :
    effs = [] ∨ ∃ vals, process_input_files w.exif w.entries = .ok vals ∧
      normalize_effects w 1 (sort_records vals) = (false, effs) := by
  unfold run at h
  cases hp : process_input_files w.exif w.entries with
  | err x =>
    rw [hp] at h
    simp only [RunResult.aborted.injEq] at h
    exact Or.inl h.symm
  | aborted =>
    rw [hp] at h
    simp only [RunResult.aborted.injEq] at h
    exact Or.inl h.symm
  | ok vals =>
    rw [hp] at h
    simp only at h
    cases hn : normalize_effects w 1 (sort_records vals) with
    | mk b ne =>
      cases b with
      | false =>
        rw [hn] at h
        simp only [RunResult.aborted.injEq] at h
        exact Or.inr ⟨vals, rfl, by rw [hn, h]⟩
      | true => rw [hn] at h; exact absurd h (by simp)

/-! ## Claims -/

/-- C1, counterexample: on a file whose metadata container parses but
whose capture-time field is absent, `retrieve_image_and_metadata` does
not return a `MetadataError`-style failure result — it aborts the process
(the `unwrap()` at line 203 panics). -/
theorem C1_counterexample :
    retrieve_image_and_metadata exifAbsent "a.jpg" = RResult.aborted ∧
    retrieve_image_and_metadata exifAbsent "a.jpg" ≠ RResult.err ExifError.ioError ∧
    retrieve_image_and_metadata exifAbsent "a.jpg" ≠ RResult.err ExifError.containerError := by
  refine ⟨rfl, ?_, ?_⟩ <;> decide

/-- C1 (amended): `retrieve_image_and_metadata` returns an `Err` exactly
when the file cannot be opened (an I/O error) or the metadata container
cannot be parsed; when the capture-time field is absent, or the field's
string is missing components, or a numeric component fails to parse, or
the date/time constructor rejects the values, the process aborts (panics)
instead of returning a failure result; otherwise it returns the
`ImageRecord` with the parsed date-time. -/
theorem C1_amended (fs : String → ExifFile) (p : String) :
    (retrieve_image_and_metadata fs p = .err .ioError ↔ (fs p).openable = false)
  ∧ (retrieve_image_and_metadata fs p = .err .containerError ↔
      ((fs p).openable = true ∧ (fs p).container_ok = false))
  ∧ (retrieve_image_and_metadata fs p = .aborted ↔
      ((fs p).openable = true ∧ (fs p).container_ok = true ∧
        ((fs p).date_time_original = none ∨
          ∃ s, (fs p).date_time_original = some s ∧ parse_date_time s = none)))
  ∧ (∀ (s : String) (dt : NaiveDateTime),
      (fs p).openable = true → (fs p).container_ok = true →
      (fs p).date_time_original = some s → parse_date_time s = some dt →
      retrieve_image_and_metadata fs p = .ok ⟨p, dt⟩) := by
  unfold retrieve_image_and_metadata
  rcases hfp : fs p with ⟨o, c, d⟩
  cases o with
  | false => simp
  | true =>
    cases c with
    | false => simp
    | true =>
      cases d with
      | none => simp
      | some s =>
        cases hps : parse_date_time s with
        | none =>
          simp [hps]
          intro s' dt hs
          subst hs
          simp [hps]
        | some dt =>
          simp [hps]
          intro s' dt' hs hp'
          subst hs
          rw [hps] at hp'
          exact (Option.some.injEq .. ▸ hp')

/-- C1, witness: on a well-formed file the extractor returns the record
with the parsed date-time. -/
theorem C1_witness :
    retrieve_image_and_metadata exifW "a" = RResult.ok ⟨"a", dtA⟩ :=
  (C1_amended exifW "a").2.2.2 "2020-01-02 10:00:00" dtA rfl rfl rfl rfl

/-- C2, counterexample: with one artifact, the single composed page holds
its image with no translation at all (both translation arguments are
`None`) and with an explicit scale factor of 2.0 in both axes — the call
at line 161 passes `Some(2.0), Some(2.0)` in the scale positions of
`add_to_layer`, not a 2mm translation. -/
theorem C2_counterexample :
    (write_images_to_pdf_file "t" 1).1.pages =
      [⟨216, 279, [(page_name 1, booker_placement)]⟩] ∧
    booker_placement.translate_x = none ∧
    booker_placement.translate_y = none ∧
    booker_placement.rotate = none ∧
    booker_placement.scale_x = some 2 ∧
    booker_placement.scale_y = some 2 := by
  refine ⟨?_, rfl, rfl, rfl, rfl, rfl⟩
  decide

/-- C2 (amended): for every list of N >= 1 normalized artifacts, the Page
Composer inserts artifact k into page k, for every k in 1..N, with no
explicit translation or rotation and with an explicit scale factor of 2.0
in both axes (`add_to_layer(layer, None, None, None, Some(2.0),
Some(2.0), None)`). -/
theorem C2_amended (doc_title : String) (num_images k : Nat)
    (h1 : 1 ≤ k) (h2 : k ≤ num_images) :
    ((write_images_to_pdf_file doc_title num_images).1.pages)[k - 1]? =
      some ⟨216, 279, [(page_name k, booker_placement)]⟩ := by
  obtain ⟨r, rfl⟩ : ∃ r, num_images = r + 1 := ⟨num_images - 1, by omega⟩
  have hk : 1 + (k - 1) = k := by omega
  simp [write_images_pages, List.getElem?_range', (by omega : k - 1 < r + 1), hk, page_with]

/-- C2, witness: in a three-artifact run, page 2 holds artifact 2 with
the fixed scale-2.0 placement. -/
theorem C2_witness :
    ((write_images_to_pdf_file "t" 3).1.pages)[1]? =
      some ⟨216, 279, [(page_name 2, booker_placement)]⟩ :=
  C2_amended "t" 3 2 (by decide) (by decide)

/-- C5, counterexample: on a directory yielding zero images the run does
not fail and does not produce a zero-page document — it succeeds with a
document of exactly one (empty) page, because `PdfDocument::new` already
creates page 1 and the composer loop never runs. -/
theorem C5_counterexample :
    run worldEmpty "t" = RunResult.success ⟨"t", [blank_page]⟩ [Effect.create_output] ∧
    ([blank_page] : List PdfPage).length = 1 ∧
    blank_page.images = [] := by
  refine ⟨by decide, rfl, rfl⟩

/-- C5 (amended): when the input directory yields zero images (N = 0),
the run deterministically succeeds and produces a document with exactly
one page of the fixed 216mm x 279mm size containing no image. -/
theorem C5_amended (w : World) (doc_title : String)
    (h : candidate_entries w.entries = []) :
    run w doc_title =
      RunResult.success ⟨doc_title, [blank_page]⟩ [Effect.create_output] := by
  unfold run
  rw [process_input_files, h]
  simp [extract_all, sort_records, List.insertionSort, normalize_effects,
    write_images_to_pdf_file, compose_pages]

/-- C5, witness: the empty world produces the one-blank-page document. -/
theorem C5_witness :
    run worldEmpty "empty" =
      RunResult.success ⟨"empty", [blank_page]⟩ [Effect.create_output] :=
  C5_amended worldEmpty "empty" (by decide)

/-- C3: in a run over a directory whose files all extract and decode,
with N >= 1 records, the document has exactly N pages, every page has the
fixed 216mm x 279mm size, the sorted record sequence is in non-decreasing
capture-timestamp order (adjacent comparisons never `Greater`), and page
i (0-based) holds exactly the artifact of sequence number i+1. -/
theorem C3_document (w : World) (doc_title : String) (doc : PdfDocument)
    (effs : List Effect) (vals : List ImageAndMetadata)
    (hp : process_input_files w.exif w.entries = .ok vals)
    (h : run w doc_title = .success doc effs)
    (hN : 1 ≤ vals.length) :
    doc.pages.length = vals.length ∧
    (∀ p ∈ doc.pages, p.width_mm = 216 ∧ p.height_mm = 279) ∧
    List.Chain' (fun a b => record_le a b = true) (sort_records vals) ∧
    (∀ i : Nat, i < vals.length →
      doc.pages[i]? = some ⟨216, 279, [(page_name (i + 1), booker_placement)]⟩) := by
  obtain ⟨vals', ne, hp', hn, hdoc, heffs⟩ := run_success_elim w doc_title doc effs h
  rw [hp'] at hp
  simp only [RResult.ok.injEq] at hp
  subst hp
  obtain ⟨r, hr⟩ : ∃ r, (sort_records vals').length = r + 1 :=
    ⟨vals'.length - 1, by rw [sort_records_length]; omega⟩
  have hrv : r + 1 = vals'.length := by rw [← hr, sort_records_length]
  have hpages : doc.pages = (List.range' 1 (r + 1)).map page_with := by
    rw [hdoc, hr, write_images_pages]
  refine ⟨?_, ?_, ?_, ?_⟩
  · rw [hpages, List.length_map, List.length_range', hrv]
  · intro p hmem
    rw [hpages] at hmem
    obtain ⟨j, _, hj⟩ := List.mem_map.mp hmem
    rw [← hj]
    exact ⟨rfl, rfl⟩
  · exact (sort_records_sorted vals').chain'
  · intro i hi
    rw [hpages, List.getElem?_map, List.getElem?_range' _ _ (by omega : i < r + 1),
      (by omega : 1 + 1 * i = i + 1)]
    rfl

/-- C3, witness: a two-image world (walked "a" then "b", captured "b"
before "a") yields the two-page document in capture order. -/
theorem C3_witness :
    docW.pages.length = valsAB.length ∧
    (∀ p ∈ docW.pages, p.width_mm = 216 ∧ p.height_mm = 279) ∧
    List.Chain' (fun a b => record_le a b = true) (sort_records valsAB) ∧
    (∀ i : Nat, i < valsAB.length →
      docW.pages[i]? = some ⟨216, 279, [(page_name (i + 1), booker_placement)]⟩) :=
  C3_document worldW "t" docW effsW valsAB (by decide) (by decide) (by decide)

/-- C4: the Corpus Scanner silently skips unreadable entries and
directory entries (a walk filtered down to its readable non-directory
entries scans identically), returns one record per candidate file in walk
order when every extraction succeeds, and aborts the whole scan at the
first extraction failure — a returned `Err` propagates that same error,
an extraction panic aborts — with no per-file skip-on-error. -/
theorem C4_scanner (fs : String → ExifFile) (entries : List DirEntry) :
    process_input_files fs entries =
        process_input_files fs (entries.filter (fun e => e.readable && ! e.is_dir))
  ∧ (∀ vals : List ImageAndMetadata, process_input_files fs entries = .ok vals →
      vals.length = (candidate_entries entries).length ∧
        ∀ (i : Nat) (e : DirEntry) (v : ImageAndMetadata),
          (candidate_entries entries)[i]? = some e → vals[i]? = some v →
          retrieve_image_and_metadata fs e.path = .ok v)
  ∧ ((∀ e ∈ candidate_entries entries, (retrieve_image_and_metadata fs e.path).isOk = true) →
      ∃ vals, process_input_files fs entries = .ok vals ∧
        vals.length = (candidate_entries entries).length)
  ∧ (∀ (i : Nat) (e : DirEntry) (x : ExifError), (candidate_entries entries)[i]? = some e →
      (∀ (j : Nat) (ej : DirEntry), j < i → (candidate_entries entries)[j]? = some ej →
        (retrieve_image_and_metadata fs ej.path).isOk = true) →
      retrieve_image_and_metadata fs e.path = .err x →
      process_input_files fs entries = .err x)
  ∧ (∀ (i : Nat) (e : DirEntry), (candidate_entries entries)[i]? = some e →
      (∀ (j : Nat) (ej : DirEntry), j < i → (candidate_entries entries)[j]? = some ej →
        (retrieve_image_and_metadata fs ej.path).isOk = true) →
      retrieve_image_and_metadata fs e.path = .aborted →
      process_input_files fs entries = .aborted) := by
  refine ⟨?_, ?_, ?_, ?_, ?_⟩
  · rw [process_input_files, process_input_files, candidate_entries_filter,
      candidate_entries_filter, List.filter_filter]
    congr 1
    exact List.filter_congr (fun e _ => (Bool.and_self _).symm)
  · intro vals h
    exact extract_all_ok_elim fs _ vals h
  · intro h
    exact extract_all_ok_of_all fs _ h
  · intro i e x hi hb he
    exact extract_all_first_err fs _ i e x hi hb he
  · intro i e hi hb he
    exact extract_all_first_abort fs _ i e hi hb he

/-- C4, witness: a walk containing a directory and an unreadable entry
besides two good files scans to exactly two records. -/
theorem C4_witness :
    ∃ vals, process_input_files exifW entriesMixed = RResult.ok vals ∧
      vals.length = (candidate_entries entriesMixed).length :=
  (C4_scanner exifW entriesMixed).2.2.1 (by decide)

/-- C6: the Normalizer rotates the decoded raster by 270 degrees
clockwise (= 90 degrees counter-clockwise) exactly when width strictly
exceeds height, leaves it unrotated when width <= height, applies the
rotation before grayscale conversion and resizing, and the rotation
really is the 270-degree pixel remapping (output (x, y) reads source
(width - 1 - y, x), with the dimensions swapped). -/
theorem C6_orientation (ops : PixelOps) (img : RgbImage) :
    (img.width > img.height →
      normalize_image ops img =
        imageops_resize ops (grayscale ops (rotate270 img)) 1275 1650 FilterType.CatmullRom)
  ∧ (img.width ≤ img.height →
      normalize_image ops img =
        imageops_resize ops (grayscale ops img) 1275 1650 FilterType.CatmullRom)
  ∧ (rotate270 img).width = img.height ∧ (rotate270 img).height = img.width
  ∧ ∀ x y : Nat, (rotate270 img).pixel x y = img.pixel (img.width - 1 - y) x := by
  refine ⟨?_, ?_, rfl, rfl, fun x y => rfl⟩
  · intro h
    simp [normalize_image, h]
  · intro h
    simp [normalize_image, Nat.not_lt.mpr h]

/-- C6, witness: a 2x1 landscape raster is normalized through the
rotated path. -/
theorem C6_witness :
    normalize_image opsW imgW =
      imageops_resize opsW (grayscale opsW (rotate270 imgW)) 1275 1650 FilterType.CatmullRom :=
  (C6_orientation opsW imgW).1 (by decide)

/-- C7: when the normalization loop starting at sequence number 1
completes, it persists exactly one artifact per record; the artifact of
the record at 0-based position i is named `page-` followed by i+1
zero-padded to at least three digits plus `.jpg`, is exactly 1275 x 1650
pixels, is single-channel (a `GrayImage`), and is produced by `resize`
with the Catmull-Rom filter; in particular sequence number 7 yields
"page-007.jpg". -/
theorem C7_normalizer (ops : PixelOps) (decode : String → Option RgbImage)
    (vals : List ImageAndMetadata) (arts : List (String × GrayImage))
    (h : normalize_artifacts ops decode 1 vals = some arts) :
    (arts.length = vals.length ∧
      ∀ (i : Nat) (a : String × GrayImage), arts[i]? = some a →
        a.1 = page_name (i + 1) ∧ a.2.width = 1275 ∧ a.2.height = 1650 ∧
        ∃ g, a.2 = imageops_resize ops g 1275 1650 FilterType.CatmullRom) ∧
    page_name 7 = "page-007.jpg" := by
  obtain ⟨hl, hidx⟩ := normalize_artifacts_spec ops decode vals 1 arts h
  refine ⟨⟨hl, ?_⟩, rfl⟩
  intro i a ha
  have hia := hidx i a ha
  rwa [Nat.add_comm 1 i] at hia

/-- C7, witness: one record normalizes to the single artifact
"page-001.jpg" at 1275 x 1650. -/
theorem C7_witness :
    (([(page_name 1, normalize_image opsW imgW)] :
        List (String × GrayImage)).length = valsW.length ∧
      ∀ (i : Nat) (a : String × GrayImage),
        ([(page_name 1, normalize_image opsW imgW)] :
          List (String × GrayImage))[i]? = some a →
        a.1 = page_name (i + 1) ∧ a.2.width = 1275 ∧ a.2.height = 1650 ∧
        ∃ g, a.2 = imageops_resize opsW g 1275 1650 FilterType.CatmullRom) ∧
    page_name 7 = "page-007.jpg" :=
  C7_normalizer opsW decodeW valsW [(page_name 1, normalize_image opsW imgW)] rfl

/-- C8: the chronological sort's comparison succeeds on every pair of
records — `partial_cmp` on `NaiveDateTime` always returns `Some` of the
total comparison, so the `unwrap` in the sort comparator can never
observe `None`, and sorting any corpus (a permutation of it) cannot fail
on the comparison. -/
theorem C8_comparison_total (a b : ImageAndMetadata) (l : List ImageAndMetadata) :
    sort_comparator a b = some (NaiveDateTime.cmp a.date_created b.date_created) ∧
    sort_comparator a b ≠ none ∧
    (sort_records l).Perm l :=
  ⟨rfl, by simp [sort_comparator, NaiveDateTime.partCmp], sort_records_perm l⟩

/-- C9: the output file is created only by the final serialization, after
all pages are composed: an aborted run has performed no
`File::create(output)` effect, and a successful run performs it exactly
once, as its very last effect. -/
theorem C9_no_partial_output (w : World) (doc_title : String) :
    (∀ effs, run w doc_title = .aborted effs → Effect.create_output ∉ effs) ∧
    (∀ doc effs, run w doc_title = .success doc effs →
      ∃ pre, effs = pre ++ [Effect.create_output] ∧ Effect.create_output ∉ pre) := by
  constructor
  · intro effs h
    rcases run_aborted_elim w doc_title effs h with h0 | ⟨vals, _, hn⟩
    · subst h0; simp
    · intro hmem
      obtain ⟨n, hn'⟩ := normalize_effects_only_writes w (sort_records vals) 1
        Effect.create_output (by rw [hn]; exact hmem)
      exact Effect.noConfusion hn'
  · intro doc effs h
    obtain ⟨vals, ne, _, hn, _, heffs⟩ := run_success_elim w doc_title doc effs h
    rw [heffs, write_images_effects, ← List.append_assoc]
    refine ⟨_, rfl, ?_⟩
    intro hmem
    rcases List.mem_append.mp hmem with hm | hm
    · obtain ⟨n, hn'⟩ := normalize_effects_only_writes w (sort_records vals) 1
        Effect.create_output (by rw [hn]; exact hm)
      exact Effect.noConfusion hn'
    · obtain ⟨j, _, hj⟩ := List.mem_map.mp hm
      exact Effect.noConfusion hj

/-- C9, witness: the run whose second decode fails aborts after writing
only artifact 1 — the output file was never created. -/
theorem C9_witness :
    Effect.create_output ∉ [Effect.write_artifact (page_name 1)] :=
  (C9_no_partial_output worldDecodeFail "t").1
    [Effect.write_artifact (page_name 1)] (by decide)

/-- C10: a run that reaches composition with N records writes exactly the
artifacts `page-001.jpg` .. `page-NNN.jpg` (in that order) and the
composer then opens exactly those same N names in ascending order, before
the single output creation: the whole effect trace is the N writes, then
the N opens, then `File::create(output)`. -/
theorem C10_artifact_names (w : World) (doc_title : String) (doc : PdfDocument)
    (effs : List Effect) (h : run w doc_title = .success doc effs) :
    ∃ vals, process_input_files w.exif w.entries = .ok vals ∧
      effs = ((List.range' 1 vals.length).map (fun j => Effect.write_artifact (page_name j)))
          ++ ((List.range' 1 vals.length).map (fun j => Effect.open_artifact (page_name j)))
          ++ [Effect.create_output] := by
  obtain ⟨vals, ne, hp, hn, _, heffs⟩ := run_success_elim w doc_title doc effs h
  refine ⟨vals, hp, ?_⟩
  rw [heffs, write_images_effects, normalize_effects_ok w (sort_records vals) 1 ne hn,
    sort_records_length, List.append_assoc]

/-- C10, witness: the two-image run writes page-001, page-002, opens
page-001, page-002, then creates the output. -/
theorem C10_witness :
    ∃ vals, process_input_files worldW.exif worldW.entries = RResult.ok vals ∧
      effsW = ((List.range' 1 vals.length).map
                (fun j => Effect.write_artifact (page_name j)))
          ++ ((List.range' 1 vals.length).map
                (fun j => Effect.open_artifact (page_name j)))
          ++ [Effect.create_output] :=
  C10_artifact_names worldW "t" docW effsW (by decide)

end Booker
